import Mathlib

/-!
Shallow embedding of the secret-resolution engine of vault-to-envs
(pkg/vaulttoenvs/vaulttoenvs.go).

Modelling conventions:
  - Go maps are represented as association lists; a map lookup is
    List.lookup (first match).  Where the code iterates over a Go map
    (whose iteration order the Go specification leaves undefined), the
    iteration order is an explicit parameter or an explicit list order.
  - Go interface values read back from Vault are represented by the
    inductive GoVal; a failed type assertion or a nil-pointer
    dereference is represented by the outcome GoFail.panicked.
  - Transport-level errors of the Vault HTTP client are not modelled:
    the read operations return Option GoSecret (none = empty response).
  - The Version field of SecretItem is float64 in Go; the engine
    immediately truncates it with int(...), and every claim concerns
    integral selectors, so it is modelled as Int.
-/

namespace V2E

/-- A dynamically typed value from a Vault response
(Go interface value: string, bool, or nested JSON object). -/
inductive GoVal where
  | str (s : String)
  | boolean (b : Bool)
  | obj (fields : List (String × GoVal))

/-- Vault mount metadata (VaultApi.MountOutput); only the Type field is used. -/
structure MountOutput where
  type : String
deriving Repr, DecidableEq

/-- A Vault secret response (VaultApi.Secret): the Data map plus the
lease fields used by the lease-management code. -/
structure GoSecret where
  data : List (String × GoVal)
  renewable : Bool
  leaseID : String
  leaseDuration : Int

/-- How a run of the engine can fail: a returned Go error carrying a
message, or a runtime panic (nil-pointer dereference or failed type
assertion), which crashes the process instead of reporting an error. -/
inductive GoFail where
  | errMsg (msg : String)
  | panicked
deriving Repr, DecidableEq

/-- Result of one AWS GetCallerIdentity call: success, an awserr.Error
with a code, or a non-AWS error value (whose type assertion to
awserr.Error fails in the code). -/
inductive AwsCallResult where
  | success
  | awsError (code : String) (msg : String)
  | otherError (msg : String)

/-- The Vault collaborator: the operations the engine invokes.
read models Logical().Read, readWithVersion models
Logical().ReadWithData with the version query parameter, renew models
Sys().Renew (none = the renew call returned an error), and awsCall
models the k-th STS GetCallerIdentity call made for a given access key. -/
structure Vault where
  mounts : List (String × MountOutput)
  read : String → Option GoSecret
  readWithVersion : String → Int → Option GoSecret
  renew : String → Int → Option GoSecret
  awsCall : String → Nat → AwsCallResult

/-- One configured secret request (SecretItem): vault_path, ttl,
version and the set mapping.  secretMaps lists the entries of the Go
map in one (arbitrary but fixed) iteration order. -/
structure SecretItem where
  secretPath : String
  ttl : Int
  version : Int
  secretMaps : List (String × String)

/-- strings.Split(p, "/"): split on every slash, keeping empty fields. -/
def splitSlashAux : List Char → List Char → List String
  | [], acc => [String.mk acc.reverse]
  | c :: rest, acc =>
    if c = '/' then String.mk acc.reverse :: splitSlashAux rest []
    else splitSlashAux rest (c :: acc)

/-- strings.Split(p, "/") on a String. -/
def splitPath (p : String) : List String := splitSlashAux p.data []

/-- path.Join on already-clean segments: drop empty arguments and join
the rest with single slashes (Go additionally runs path.Clean, which is
the identity on the clean segments the engine builds). -/
def goPathJoin (parts : List String) : String :=
  String.intercalate "/" (parts.filter (fun s => s ≠ ""))

/-- GetKV2Secret lines 290-295: the data path; the segment "data" is
inserted after the mount segment only when the second segment of the
configured path is not already "data". -/
def secretDataPath (p : String) : String :=
  let parts := splitPath p
  if parts.getD 1 "" ≠ "data" then
    goPathJoin [parts.headD "", "data", String.intercalate "/" (parts.drop 1)]
  else p

/-- GetKV2Secret line 296: the metadata path; the segment "metadata" is
always inserted after the mount segment, with no check whether the
second segment is "data". -/
def secretMetadataPath (p : String) : String :=
  let parts := splitPath p
  goPathJoin [parts.headD "", "metadata", String.intercalate "/" (parts.drop 1)]

/-- An ASCII decimal digit. -/
def isDigitChar (c : Char) : Bool := 48 ≤ c.toNat && c.toNat ≤ 57

/-- Accumulate the value of a digit run; any non-digit fails. -/
def digitsAux : List Char → Nat → Option Nat
  | [], acc => some acc
  | c :: rest, acc =>
    if isDigitChar c then digitsAux rest (acc * 10 + (c.toNat - 48))
    else none

/-- strconv.Atoi: an optional sign followed by at least one digit. -/
def goAtoi (s : String) : Option Int :=
  match s.data with
  | [] => none
  | c :: rest =>
    if c = '-' then
      match rest with
      | [] => none
      | _ => (digitsAux rest 0).map (fun n => -(n : Int))
    else if c = '+' then
      match rest with
      | [] => none
      | _ => (digitsAux rest 0).map (fun n => (n : Int))
    else (digitsAux (c :: rest) 0).map (fun n => (n : Int))

/-- The strconv.Atoi conversion of the version-map keys (lines 314-320):
collect all keys, failing with the conversion error when one is not an
integer. -/
def parseKeys : List String → Except GoFail (List Int)
  | [] => .ok []
  | k :: rest =>
    match goAtoi k with
    | none => .error (.errMsg ("Error converting version number: " ++ k))
    | some n =>
      match parseKeys rest with
      | .error e => .error e
      | .ok ns => .ok (n :: ns)

/-- Insert into an ascending list (helper for sort.Ints). -/
def insertSorted (x : Int) : List Int → List Int
  | [] => [x]
  | y :: ys => if x ≤ y then x :: y :: ys else y :: insertSorted x ys

/-- sort.Ints: sort ascending. -/
def sortInts (l : List Int) : List Int := l.foldr insertSorted []

/-- The version-selection loop of GetKV2Secret (lines 324-351) for a
negative selector, re-indexed: the Go loop variable i starts at the
selector s and decreases; the array index len(keys)-1+i therefore walks
downward, and the loop errors out as soon as that index becomes
negative.  Here fuel = index+1, so the initial call uses
fuel = (keys.length + s).toNat and fuel 0 is the out-of-bounds error.
Note the first index inspected for s = -1 is keys.length - 2: the
second-newest version, not the newest. -/
def findVersion (vres : List (String × GoVal)) (keys : List Int)
    (req : Int) (path : String) : Nat → Except GoFail Int
  | 0 =>
    .error (.errMsg ("Unabled to find desired version " ++ toString req
      ++ " for secret " ++ path))
  | fuel + 1 =>
    let currentVersion := keys.getD fuel 0
    match List.lookup (toString currentVersion) vres with
    | some (GoVal.obj fields) =>
      match List.lookup "deletion_time" fields, List.lookup "destroyed" fields with
      | some (GoVal.str dt), some (GoVal.boolean dest) =>
        if dt ≠ "" ∨ dest = true then findVersion vres keys req path fuel
        else .ok currentVersion
      | _, _ => .error .panicked
    | _ => .error .panicked

/-- The per-entry extraction the walk performs at array index j: the
metadata entry of version keys[j], when it exists and is well typed
(deletion_time a string, destroyed a bool). -/
def metaAt (vres : List (String × GoVal)) (keys : List Int) (j : Nat) :
    Option (String × Bool) :=
  match List.lookup (toString (keys.getD j 0)) vres with
  | some (GoVal.obj fields) =>
    match List.lookup "deletion_time" fields, List.lookup "destroyed" fields with
    | some (GoVal.str dt), some (GoVal.boolean dest) => some (dt, dest)
    | _, _ => none
  | _ => none

/-- Version at array index j is live: its deletion timestamp is empty
and its destroyed flag is false. -/
def liveAt (vres : List (String × GoVal)) (keys : List Int) (j : Nat) : Bool :=
  match metaAt vres keys j with
  | some (dt, dest) => if dt = "" then !dest else false
  | none => false

/-- Modelled from the spec: the walk for a negative selector s as the
specification describes it, with offset -1 denoting the NEWEST version
(so the first array index inspected is keys.length - 1 + s + 1 =
keys.length + s, i.e. the newest for s = -1), then walking toward older
versions with the same skipping rule as the code.  Defined only to be
compared with the walk the code performs. -/
def specVersionWalk (vres : List (String × GoVal)) (keys : List Int)
    (req : Int) (path : String) : Except GoFail Int :=
  findVersion vres keys req path ((keys.length : Int) + req + 1).toNat

/-- The key-to-env mapping loop of GetKV2Secret (lines 371-383): the
payload must contain a nested object under "data"; a missing requested
key is an error, an ill-typed value is a panic. -/
def mapKV2Pairs (secret : GoSecret) (path : String) :
    List (String × String) → Except GoFail (List (String × String))
  | [] => .ok []
  | (envName, keyName) :: rest =>
    match List.lookup "data" secret.data with
    | none => .error (.errMsg ("No data found in secret " ++ path))
    | some dv =>
      match dv with
      | GoVal.obj data =>
        match List.lookup keyName data with
        | none =>
          .error (.errMsg ("Key " ++ keyName ++ " not found in secret " ++ path))
        | some v =>
          match v with
          | GoVal.str s =>
            match mapKV2Pairs secret path rest with
            | .error e => .error e
            | .ok ps => .ok ((envName, s) :: ps)
          | _ => .error .panicked
      | _ => .error .panicked

/-- GetKV2Secret (lines 287-386): build the data and metadata paths,
resolve the effective version (a non-negative selector is passed
through verbatim, a negative one runs the metadata walk), read the data
path with that version, and map the requested keys. -/
def getKV2Secret (vault : Vault) (item : SecretItem) :
    Except GoFail (GoSecret × List (String × String)) :=
  let dataPath := secretDataPath item.secretPath
  let metaPath := secretMetadataPath item.secretPath
  let effVer : Except GoFail Int :=
    if 0 ≤ item.version then .ok item.version
    else
      match vault.read metaPath with
      | none =>
        .error (.errMsg ("Could not get secret metadata " ++ metaPath
          ++ ": Secret does not exist"))
      | some msecret =>
        match List.lookup "versions" msecret.data with
        | some (GoVal.obj vres) =>
          match parseKeys (vres.map (fun p => p.1)) with
          | .error e => .error e
          | .ok ks =>
            let keys := sortInts ks
            findVersion vres keys item.version item.secretPath
              ((keys.length : Int) + item.version).toNat
        | _ => .error .panicked
  match effVer with
  | .error e => .error e
  | .ok ver =>
    match vault.readWithVersion dataPath ver with
    | none =>
      .error (.errMsg ("Could not find secret " ++ item.secretPath
        ++ ": version " ++ toString item.version))
    | some secret =>
      match mapKV2Pairs secret item.secretPath item.secretMaps with
      | .error e => .error e
      | .ok pairs => .ok (secret, pairs)

/-- The key-to-env mapping loop of the generic (non-kv) branch of
getSecret (lines 212-217): a missing requested key is an error naming
the key and path; an ill-typed value is a panic on the string cast. -/
def mapGenericPairs (secret : GoSecret) (path : String) :
    List (String × String) → Except GoFail (List (String × String))
  | [] => .ok []
  | (envName, keyName) :: rest =>
    match List.lookup keyName secret.data with
    | none =>
      .error (.errMsg ("Key " ++ keyName ++ " not found in secret " ++ path))
    | some v =>
      match v with
      | GoVal.str s =>
        match mapGenericPairs secret path rest with
        | .error e => .error e
        | .ok ps => .ok ((envName, s) :: ps)
      | _ => .error .panicked

/-- The lease-management tail of getSecret (lines 220-239): reject a
requested TTL on a non-renewable secret; with ttl = 0 only log; with a
nonzero TTL on a renewable secret, renew the lease and reject the
result when the granted duration falls short of the request by more
than 5 seconds (the comparison is TTL - granted > 5, one-sided). -/
def leaseStep (vault : Vault) (item : SecretItem) (secret : GoSecret) :
    Except GoFail Unit :=
  if item.ttl ≠ 0 ∧ secret.renewable = false then
    .error (.errMsg ("Cannot set TTL on secret " ++ item.secretPath
      ++ ". TTL can only be set on dynamic secrets like AWS credentials"))
  else if item.ttl = 0 ∧ secret.renewable = true then
    .ok ()
  else if item.ttl ≠ 0 then
    match vault.renew secret.leaseID item.ttl with
    | none => .error (.errMsg "Error renewing secret (setting TTL)")
    | some renewed =>
      if 5 < item.ttl - renewed.leaseDuration then
        .error (.errMsg ("Not able to set TTL to desired amount. Desired: "
          ++ toString item.ttl ++ "; Actual: " ++ toString renewed.leaseDuration))
      else .ok ()
  else .ok ()

/-- getSecret (lines 175-242): dereference the mount stored for the item
(a nil mount panics at the Type access), dispatch to the kv2 fetcher or
the generic read (rejecting a version selector on a non-kv mount), map
the requested keys, then run the lease step. -/
def getSecret (vault : Vault) (item : SecretItem) (mount : Option MountOutput) :
    Except GoFail (GoSecret × List (String × String)) :=
  match mount with
  | none => .error .panicked
  | some m =>
    let fetched : Except GoFail (GoSecret × List (String × String)) :=
      if m.type = "kv" then getKV2Secret vault item
      else if item.version ≠ 0 then
        .error (.errMsg ("Version specified on non-versioned secret: "
          ++ item.secretPath))
      else
        let parts := splitPath item.secretPath
        let path1 :=
          if m.type = "kv" ∧ parts.getD 1 "" ≠ "data" then
            goPathJoin [parts.headD "", "data", String.intercalate "/" (parts.drop 1)]
          else item.secretPath
        match vault.read path1 with
        | none => .error (.errMsg ("Could not find secret " ++ path1))
        | some secret =>
          match mapGenericPairs secret path1 item.secretMaps with
          | .error e => .error e
          | .ok pairs => .ok (secret, pairs)
    match fetched with
    | .error e => .error e
    | .ok (secret, pairs) =>
      match leaseStep vault item secret with
      | .error e => .error e
      | .ok _ => .ok (secret, pairs)

/-- A Go error value as seen by the retry helper: a plain error, or one
wrapped in the stop type (the helper unwraps stop and aborts; nothing in
this code base ever constructs a stop value). -/
inductive GoError where
  | plain (msg : String)
  | stopped (msg : String)
deriving Repr, DecidableEq

/-- retry (lines 446-460): run fn; a stop-wrapped error aborts with the
inner error; any other error sleeps and recurses with one fewer attempt
and a doubled delay until the budget is spent.  fn k is the k-th call;
the result records the final error, the next call index (so calls made
= final index minus initial index) and the list of sleeps performed. -/
def retry (fn : Nat → Option GoError) :
    Nat → Nat → Nat → Option GoError × Nat × List Nat
  | attempts, sleep, k =>
    match fn k with
    | none => (none, k + 1, [])
    | some e =>
      match e with
      | .stopped inner => (some (.plain inner), k + 1, [])
      | .plain m =>
        match attempts with
        | a + 2 =>
          let r := retry fn (a + 1) (2 * sleep) (k + 1)
          (r.1, r.2.1, sleep :: r.2.2)
        | _ => (some (.plain m), k + 1, [])

/-- The closure passed to retry by waitForAwsCredsToActivate
(lines 422-436): an awserr with code InvalidClientTokenId is returned
as-is (transient, triggers a retry); any other awserr is wrapped in a
NEW error message and returned - crucially NOT wrapped in stop, so the
retry helper treats it like a transient failure; a nil error or a
non-awserr error value falls through to the success path (the type
assertion fails and the polling reports success). -/
def awsFnResult : AwsCallResult → Option GoError
  | .success => none
  | .awsError code msg =>
    if code = "InvalidClientTokenId" then some (.plain msg)
    else some (.plain ("Error validating AWS credentials: " ++ msg))
  | .otherError _ => none

/-- The role-extraction loop of waitForAwsCredsToActivate
(lines 393-399): scan the set mapping for an entry whose Vault key is
the given role and take the resolved value of the LAST such entry
(missing resolved values read as the empty string, the Go zero value). -/
def lastRoleValue (maps : List (String × String))
    (resolved : List (String × String)) (role : String) : String :=
  maps.foldl
    (fun acc p => if p.2 = role then (List.lookup p.1 resolved).getD "" else acc)
    ""

/-- waitForAwsCredsToActivate (lines 388-444): extract the access and
secret keys, fail before any network call when either role is not
mapped, then poll GetCallerIdentity through retry(20, 1 second). -/
def waitForAwsCreds (vault : Vault) (item : SecretItem)
    (resolved : List (String × String)) : Except GoFail Unit :=
  let accessKey := lastRoleValue item.secretMaps resolved "access_key"
  let secretKey := lastRoleValue item.secretMaps resolved "secret_key"
  if accessKey = "" then
    .error (.errMsg ("Vault key " ++ String.mk [Char.ofNat 39] ++ "access_key"
      ++ String.mk [Char.ofNat 39] ++ " for AWS credential provider "
      ++ item.secretPath ++ " not assigned to ENV var"))
  else if secretKey = "" then
    .error (.errMsg ("Vault key " ++ String.mk [Char.ofNat 39] ++ "secret_key"
      ++ String.mk [Char.ofNat 39] ++ " for AWS credential provider "
      ++ item.secretPath ++ " not assigned to ENV var"))
  else
    match (retry (fun k => awsFnResult (vault.awsCall accessKey k)) 20 1 0).1 with
    | none => .ok ()
    | some e =>
      .error (.errMsg ("Error validating AWS credentials (not active within set duration) "
        ++ (match e with | .plain m => m | .stopped m => m)))

/-- The per-item half of loadSecrets (lines 139-156): validate that the
path is set and at least one env export is configured, look the mount
type up in the cache by the top-level path segment, and fetch.  The
result keeps the item, its mount and its resolved pairs for the second
(activation) pass. -/
def loadSecretsItems (vault : Vault) :
    List SecretItem → Nat →
    Except GoFail (List (SecretItem × Option MountOutput × List (String × String)))
  | [], _ => .ok []
  | item :: rest, idx =>
    if item.secretPath = "" then
      .error (.errMsg ("Error: secret_path not specified in secret config for item "
        ++ toString (idx + 1)))
    else if item.secretMaps.length < 1 then
      .error (.errMsg ("No env exports set for secret " ++ item.secretPath))
    else
      let mount := List.lookup ((splitPath item.secretPath).headD "" ++ "/") vault.mounts
      match getSecret vault item mount with
      | .error e => .error e
      | .ok (_, pairs) =>
        match loadSecretsItems vault rest (idx + 1) with
        | .error e => .error e
        | .ok restItems => .ok ((item, mount, pairs) :: restItems)

/-- The second pass of loadSecrets (lines 160-167): for every item whose
mount has type aws, wait for the credentials to activate (the mount
pointer is dereferenced again; nil would panic, but pass one already
panicked in that case). -/
def awsPass (vault : Vault) :
    List (SecretItem × Option MountOutput × List (String × String)) →
    Except GoFail Unit
  | [] => .ok ()
  | (item, mount, pairs) :: rest =>
    match mount with
    | none => .error .panicked
    | some m =>
      if m.type = "aws" then
        match waitForAwsCreds vault item pairs with
        | .error e => .error e
        | .ok _ => awsPass vault rest
      else awsPass vault rest

/-- loadSecrets (lines 85-173) after client construction: resolve every
item in order (first pass), then run the AWS activation pass, and
return the per-item resolved (envName, value) pairs in request order. -/
def loadSecrets (vault : Vault) (items : List SecretItem) :
    Except GoFail (List (List (String × String))) :=
  match loadSecretsItems vault items 0 with
  | .error e => .error e
  | .ok resolved =>
    match awsPass vault resolved with
    | .error e => .error e
    | .ok _ => .ok (resolved.map (fun r => r.2.2))

/-- The single-quote character (ASCII 39). -/
def sq : Char := Char.ofNat 39

/-- The double-quote character (ASCII 34). -/
def dq : Char := Char.ofNat 34

/-- The replacement the exporter substitutes for each single quote:
the five characters quote, double quote, quote, double quote, quote
(close quoting, a double-quoted literal quote, reopen quoting). -/
def escapeSeq : List Char := [sq, dq, sq, dq, sq]

/-- strings.Replace(v, quote, escapeSeq, -1): replace every single
quote of the value by the escape sequence. -/
def escapeQuotesL : List Char → List Char
  | [] => []
  | c :: rest =>
    if c = sq then escapeSeq ++ escapeQuotesL rest
    else c :: escapeQuotesL rest

/-- The quote replacement on a String. -/
def escString (s : String) : String := String.mk (escapeQuotesL s.data)

/-- A one-character string holding a single quote. -/
def sqStr : String := String.mk [sq]

/-- One stdout line of DisplayEnvExports (line 257) as a character
list: export NAME=, a quote, the escaped value, a quote. -/
def displayLineL (n v : List Char) : List Char :=
  "export ".data ++ n ++ ['='] ++ (sq :: (escapeQuotesL v ++ [sq]))

/-- One stdout line of DisplayEnvExports for a resolved pair. -/
def displayLine (p : String × String) : String :=
  String.mk (displayLineL p.1.data p.2.data)

/-- One slice element of GetEnvs (line 277): NAME=VALUE with the same
quote escaping but no surrounding quotes and no export keyword. -/
def getEnvLine (p : String × String) : String :=
  p.1 ++ "=" ++ escString p.2

/-- The lines printed for a given emission order: one block per request
in request order; within a request, the pairs in the order the Go map
iteration happened to produce. -/
def displayLinesOf (emitted : List (List (String × String))) : List String :=
  (emitted.map (fun l => l.map displayLine)).flatten

/-- DisplayEnvExports (lines 245-262) for one execution whose map
iterations produced the given emission order: on a resolution error,
return it before printing anything; otherwise print the lines. -/
def runDisplayEnvExports (vault : Vault) (items : List SecretItem)
    (emitted : List (List (String × String))) : Except GoFail (List String) :=
  match loadSecrets vault items with
  | .error e => .error e
  | .ok _ => .ok (displayLinesOf emitted)

/-- GetEnvs (lines 265-282) for one execution whose map iterations
produced the given emission order, returning the Go (slice, error)
pair: (nil, the error) on failure, (the lines, nil) on success. -/
def runGetEnvs (vault : Vault) (items : List SecretItem)
    (emitted : List (List (String × String))) :
    Option (List String) × Option GoFail :=
  match loadSecrets vault items with
  | .error e => (none, some e)
  | .ok _ => (some ((emitted.map (fun l => l.map getEnvLine)).flatten), none)

/-- The possible stdout contents of one DisplayEnvExports execution:
nothing on a failed run; on success, per request (in request order) one
line per resolved pair, the pairs within a request in some order of the
Go map iteration, i.e. some permutation of the resolved pairs. -/
def displayOutputs (vault : Vault) (items : List SecretItem)
    (out : List String) : Prop :=
  match loadSecrets vault items with
  | .error _ => out = []
  | .ok resolved =>
    ∃ emitted, List.Forall₂ List.Perm resolved emitted ∧ out = displayLinesOf emitted

/-- Number of positions at which pat occurs as a contiguous
subsequence (occurrences may overlap). -/
def occurrences (pat : List Char) : List Char → Nat
  | [] => if pat = [] then 1 else 0
  | c :: rest =>
    (if pat.isPrefixOf (c :: rest) then 1 else 0) + occurrences pat rest

/-- Quote state of a POSIX shell scanning a word. -/
inductive ShellState where
  | outside
  | inSingle
  | inDouble

/-- Quote removal of a POSIX-compatible shell on a word: single quotes
and double quotes toggle quoting and are removed; everything between
single quotes is literal; inside double quotes a single quote is
literal.  (Expansion characters are irrelevant here: in the lines the
exporter emits, the only character that ever appears inside double
quotes is the single quote.) -/
def shEval : ShellState → List Char → List Char
  | _, [] => []
  | ShellState.outside, c :: rest =>
    if c = sq then shEval ShellState.inSingle rest
    else if c = dq then shEval ShellState.inDouble rest
    else c :: shEval ShellState.outside rest
  | ShellState.inSingle, c :: rest =>
    if c = sq then shEval ShellState.outside rest
    else c :: shEval ShellState.inSingle rest
  | ShellState.inDouble, c :: rest =>
    if c = dq then shEval ShellState.outside rest
    else c :: shEval ShellState.inDouble rest

/-- The env-variable-name pattern the specification requires:
one ASCII letter or underscore, then letters, digits or underscores. -/
def validEnvName (s : String) : Bool :=
  match s.data with
  | [] => false
  | c :: rest =>
    (c.isAlpha || c = '_') && rest.all (fun d => d.isAlphanum || d = '_')

/-! Concrete fixtures used by the theorems below. -/

/-- A kv2 version-metadata map with versions 1 and 2, both live. -/
def c1Vres : List (String × GoVal) :=
  [("1", GoVal.obj [("deletion_time", GoVal.str ""), ("destroyed", GoVal.boolean false)]),
   ("2", GoVal.obj [("deletion_time", GoVal.str ""), ("destroyed", GoVal.boolean false)])]

/-- The metadata response wrapping c1Vres. -/
def c1MetaSecret : GoSecret :=
  { data := [("versions", GoVal.obj c1Vres)], renewable := false,
    leaseID := "", leaseDuration := 0 }

/-- A kv2 data response whose payload maps the key k to the given value. -/
def c1DataSecret (v : String) : GoSecret :=
  { data := [("data", GoVal.obj [("k", GoVal.str v)])], renewable := false,
    leaseID := "", leaseDuration := 0 }

/-- A store with a kv mount, metadata for kv/app with versions 1 and 2
(both live), and distinguishable data payloads for the two versions. -/
def c1Vault : Vault :=
  { mounts := [("kv/", { type := "kv" })],
    read := fun p => if p = "kv/metadata/app" then some c1MetaSecret else none,
    readWithVersion := fun p ver =>
      if p = "kv/data/app" ∧ ver = 1 then some (c1DataSecret "v1")
      else if p = "kv/data/app" ∧ ver = 2 then some (c1DataSecret "v2")
      else none,
    renew := fun _ _ => none,
    awsCall := fun _ _ => AwsCallResult.success }

/-- A request for kv/app with version selector -1. -/
def c1Item : SecretItem :=
  { secretPath := "kv/app", ttl := 0, version := -1, secretMaps := [("K", "k")] }

/-- Scenario B metadata: version 7 (the newest) destroyed, version 6 live. -/
def c1bVres : List (String × GoVal) :=
  [("6", GoVal.obj [("deletion_time", GoVal.str ""), ("destroyed", GoVal.boolean false)]),
   ("7", GoVal.obj [("deletion_time", GoVal.str ""), ("destroyed", GoVal.boolean true)])]

/-- The first identity call fails with a non-transient AWS error code;
every later call succeeds. -/
def c2OneFatal : Nat → AwsCallResult
  | 0 => AwsCallResult.awsError "AccessDenied" "not authorized"
  | _ => AwsCallResult.success

/-- Every identity call fails with a non-transient AWS error code. -/
def c2AllFatal : Nat → AwsCallResult :=
  fun _ => AwsCallResult.awsError "AccessDenied" "boom"

/-- A renewable dynamic secret as fetched from the store. -/
def c3Secret : GoSecret :=
  { data := [("access_key", GoVal.str "AKIA")], renewable := true,
    leaseID := "lease-1", leaseDuration := 300 }

/-- A request for a dynamic secret with the given ttl. -/
def c3Item (ttl : Int) : SecretItem :=
  { secretPath := "aws/creds/my-role", ttl := ttl, version := 0,
    secretMaps := [("AWS_ACCESS_KEY_ID", "access_key")] }

/-- A store whose lease renewal always grants the given duration. -/
def renewVault (granted : Int) : Vault :=
  { mounts := [("aws/", { type := "aws" })],
    read := fun _ => none,
    readWithVersion := fun _ _ => none,
    renew := fun _ _ => some { data := [], renewable := true,
                               leaseID := "lease-1", leaseDuration := granted },
    awsCall := fun _ _ => AwsCallResult.success }

/-- A store that only declares the mount secret/. -/
def c4Vault : Vault :=
  { mounts := [("secret/", { type := "generic" })],
    read := fun _ => none,
    readWithVersion := fun _ _ => none,
    renew := fun _ _ => none,
    awsCall := fun _ _ => AwsCallResult.success }

/-- A request whose top-level path segment has no declared mount. -/
def c4Item : SecretItem :=
  { secretPath := "missing/foo", ttl := 0, version := 0, secretMaps := [("X", "k")] }

/-- A generic secret with two keys. -/
def c6Secret : GoSecret :=
  { data := [("k1", GoVal.str "x"), ("k2", GoVal.str "y")], renewable := false,
    leaseID := "", leaseDuration := 0 }

/-- A store serving c6Secret at secret/app. -/
def c6Vault : Vault :=
  { mounts := [("secret/", { type := "generic" })],
    read := fun p => if p = "secret/app" then some c6Secret else none,
    readWithVersion := fun _ _ => none,
    renew := fun _ _ => none,
    awsCall := fun _ _ => AwsCallResult.success }

/-- A request mapping two env names to the two keys of c6Secret. -/
def c6Item : SecretItem :=
  { secretPath := "secret/app", ttl := 0, version := 0,
    secretMaps := [("A", "k1"), ("B", "k2")] }

/-- One possible Go map iteration order of the resolved pairs of c6Item. -/
def c6E1 : List (String × String) := [("A", "x"), ("B", "y")]

/-- The other possible Go map iteration order of the same pairs. -/
def c6E2 : List (String × String) := [("B", "y"), ("A", "x")]

/-- A generic secret holding one value under the key pass. -/
def c7Secret : GoSecret :=
  { data := [("pass", GoVal.str "topsecret")], renewable := false,
    leaseID := "", leaseDuration := 0 }

/-- A store serving c7Secret at secret/app. -/
def c7Vault : Vault :=
  { mounts := [("secret/", { type := "generic" })],
    read := fun p => if p = "secret/app" then some c7Secret else none,
    readWithVersion := fun _ _ => none,
    renew := fun _ _ => none,
    awsCall := fun _ _ => AwsCallResult.success }

/-- A request mapping an arbitrary output variable name to the key pass. -/
def c7Item (n : String) : SecretItem :=
  { secretPath := "secret/app", ttl := 0, version := 0, secretMaps := [(n, "pass")] }

/-- A non-renewable secret (a plain key-value entry). -/
def c8Secret : GoSecret :=
  { data := [("token", GoVal.str "abc")], renewable := false,
    leaseID := "", leaseDuration := 0 }

/-- A store serving the non-renewable c8Secret at secret/app/token. -/
def c8Vault : Vault :=
  { mounts := [("secret/", { type := "generic" })],
    read := fun p => if p = "secret/app/token" then some c8Secret else none,
    readWithVersion := fun _ _ => none,
    renew := fun _ _ => none,
    awsCall := fun _ _ => AwsCallResult.success }

/-- Scenario C: a request with ttl 600 for the non-renewable secret. -/
def c8Item : SecretItem :=
  { secretPath := "secret/app/token", ttl := 600, version := 0,
    secretMaps := [("APP_TOKEN", "token")] }

/-- The generic mount of c8Vault. -/
def genericMount : MountOutput := { type := "generic" }

/-- The lease error getSecret reports for c8Item. -/
def c8Msg : String :=
  "Cannot set TTL on secret secret/app/token. TTL can only be set on dynamic secrets like AWS credentials"

/-- A store whose only request fails (ttl on a non-renewable secret),
used to exercise the error path of GetEnvs. -/
def c10Vault : Vault :=
  { mounts := [("secret/", { type := "generic" })],
    read := fun p => if p = "secret/db" then
        some { data := [("pw", GoVal.str "hunter2")], renewable := false,
               leaseID := "", leaseDuration := 0 }
      else none,
    readWithVersion := fun _ _ => none,
    renew := fun _ _ => none,
    awsCall := fun _ _ => AwsCallResult.success }

/-- A failing request for c10Vault: ttl set on the non-renewable secret. -/
def c10BadItem : SecretItem :=
  { secretPath := "secret/db", ttl := 60, version := 0, secretMaps := [("PW", "pw")] }

/-- A succeeding request for c10Vault. -/
def c10GoodItem : SecretItem :=
  { secretPath := "secret/db", ttl := 0, version := 0, secretMaps := [("PW", "pw")] }

/-! Theorems. -/

/-- C1 counterexample: with versions 1 and 2 both live and selector -1,
the claim (offset -1 denotes the newest version, which is live, so the
walk stops there) predicts version 2, but the engine resolves version 1
(the second-newest): the end-to-end kv2 fetch returns the version-1
payload v1, the walk the code performs returns 1, while the walk the
specification describes returns 2. -/
theorem c1_counterexample :
    getKV2Secret c1Vault c1Item = Except.ok (c1DataSecret "v1", [("K", "v1")])
    ∧ findVersion c1Vres [1, 2] (-1) "kv/app" (((2 : Int) + (-1)).toNat) = Except.ok 1
    ∧ specVersionWalk c1Vres [1, 2] (-1) "kv/app" = Except.ok 2
    ∧ (1 : Int) ≠ 2 :=
  ⟨rfl, rfl, rfl, by decide⟩

/-- C2: the code does not abort polling on a non-transient identity
failure.  First conjunct: when the first identity call fails with the
non-transient code AccessDenied and the second succeeds, the retry loop
makes a second call (next call index 2, one 1-second sleep) and reports
overall success, instead of aborting with an activation error after the
first call.  Second conjunct: when every call fails with AccessDenied,
all 20 attempts are spent, with delays 1, 2, 4, ..., 2^18 seconds,
before the wrapped error is returned. -/
theorem c2_fatal_error_is_retried :
    retry (fun k => awsFnResult (c2OneFatal k)) 20 1 0 = (none, 2, [1])
    ∧ retry (fun k => awsFnResult (c2AllFatal k)) 20 1 0 =
      (some (GoError.plain ("Error validating AWS credentials: boom")), 20,
        [1, 2, 4, 8, 16, 32, 64, 128, 256, 512, 1024, 2048, 4096, 8192,
         16384, 32768, 65536, 131072, 262144]) :=
  ⟨rfl, rfl⟩

/-- C3 counterexample: a granted lease duration that exceeds the
requested ttl by 6 seconds (ttl 10, granted 16, a difference of 6
seconds) is accepted by the lease step, while the claim says every
6-second difference fails with a lease-tolerance error. -/
theorem c3_counterexample :
    leaseStep (renewVault 16) (c3Item 10) c3Secret = Except.ok ()
    ∧ (16 - 10 : Int) = 6 :=
  ⟨rfl, rfl⟩

/-- C4: a request whose top-level path segment has no declared mount
makes the run panic (the nil mount pointer stored by loadSecrets is
dereferenced at secretItem.mount.Type in getSecret), instead of failing
with a reported classification error. -/
theorem c4_unknown_mount_panics :
    loadSecrets c4Vault [c4Item] = Except.error GoFail.panicked :=
  rfl

/-- C5 counterexample: for the value consisting of the escape sequence
itself (3 single quotes), the emitted line contains 7 occurrences of
the escape sequence, not exactly 3, because the replacements of
adjacent quotes overlap each other. -/
theorem c5_counterexample :
    List.count sq escapeSeq = 3
    ∧ occurrences escapeSeq (displayLineL ("NAME".data) escapeSeq) = 7 := by
  constructor
  · decide
  · decide

/-- C7 counterexample: the output name 1BAD does not match the required
pattern, yet loading succeeds, resolves the secret under that name, and
the line for 1BAD is a possible output of DisplayEnvExports: the name
is neither rejected by validation nor dropped. -/
theorem c7_counterexample :
    validEnvName "1BAD" = false
    ∧ loadSecrets c7Vault [c7Item "1BAD"] = Except.ok [[("1BAD", "topsecret")]]
    ∧ displayOutputs c7Vault [c7Item "1BAD"]
        (displayLinesOf [[("1BAD", "topsecret")]]) := by
  refine ⟨by decide, rfl, ?_⟩
  show ∃ emitted, List.Forall₂ List.Perm [[("1BAD", "topsecret")]] emitted
    ∧ displayLinesOf [[("1BAD", "topsecret")]] = displayLinesOf emitted
  exact ⟨[[("1BAD", "topsecret")]], List.Forall₂.cons (List.Perm.refl _) List.Forall₂.nil, rfl⟩

/-- C7 amended: loading validates only that the path is non-empty and
that at least one mapping entry exists; the output variable name is
never inspected, so for EVERY name n (conforming or not) the load
succeeds, resolves the value under n, and emits the corresponding line. -/
theorem c7_amended_no_name_validation (n : String) :
    loadSecrets c7Vault [c7Item n] = Except.ok [[(n, "topsecret")]]
    ∧ displayOutputs c7Vault [c7Item n] (displayLinesOf [[(n, "topsecret")]]) := by
  refine ⟨rfl, ?_⟩
  show ∃ emitted, List.Forall₂ List.Perm [[(n, "topsecret")]] emitted
    ∧ displayLinesOf [[(n, "topsecret")]] = displayLinesOf emitted
  exact ⟨[[(n, "topsecret")]], List.Forall₂.cons (List.Perm.refl _) List.Forall₂.nil, rfl⟩

/-- C9: the data path inserts the data segment only when the second
path segment is not already data, while the metadata path always
inserts metadata after the mount segment; consequently kv/foo and
kv/data/foo read the same data path kv/data/foo but consult different
metadata paths. -/
theorem c9_kv2_paths :
    secretDataPath "kv/foo" = "kv/data/foo"
    ∧ secretMetadataPath "kv/foo" = "kv/metadata/foo"
    ∧ secretDataPath "kv/data/foo" = "kv/data/foo"
    ∧ secretMetadataPath "kv/data/foo" = "kv/metadata/data/foo"
    ∧ secretMetadataPath "kv/foo" ≠ secretMetadataPath "kv/data/foo" :=
  ⟨rfl, rfl, rfl, rfl, by decide⟩

/-- C6 counterexample: for one fixed store and configuration, both
orders of the two resolved pairs of the single request are possible
DisplayEnvExports outputs (the emission loop ranges over a Go map,
whose iteration order is unspecified), and the two outputs differ; the
output sequence is therefore not uniquely determined by the input and
does not follow the mapping-entry order. -/
theorem c6_counterexample :
    displayOutputs c6Vault [c6Item] (displayLinesOf [c6E1])
    ∧ displayOutputs c6Vault [c6Item] (displayLinesOf [c6E2])
    ∧ displayLinesOf [c6E1] ≠ displayLinesOf [c6E2] := by
  refine ⟨?_, ?_, by decide⟩
  · show ∃ emitted, List.Forall₂ List.Perm [c6E1] emitted
      ∧ displayLinesOf [c6E1] = displayLinesOf emitted
    exact ⟨[c6E1], List.Forall₂.cons (List.Perm.refl _) List.Forall₂.nil, rfl⟩
  · show ∃ emitted, List.Forall₂ List.Perm [c6E1] emitted
      ∧ displayLinesOf [c6E2] = displayLinesOf emitted
    exact ⟨[c6E2],
      List.Forall₂.cons (List.Perm.swap ("B", "y") ("A", "x") []) List.Forall₂.nil, rfl⟩

/-- C6 amended: the emitted lines form one block per request in request
order, each block holding one line per resolved pair of that request in
an unspecified Go map iteration order; hence any two executions over
the same resolved pairs produce per-request permutations of each other
(the multiset of lines is determined even though the sequence is not). -/
theorem c6_amended_output_per_request_perm
    (resolved emitted : List (List (String × String)))
    (h : List.Forall₂ List.Perm resolved emitted) :
    (displayLinesOf emitted).Perm (displayLinesOf resolved) := by
  induction h with
  | nil => exact List.Perm.refl _
  | @cons a b l₁ l₂ hpair _ ih =>
    have hmap : (b.map displayLine).Perm (a.map displayLine) :=
      (hpair.map displayLine).symm
    simpa [displayLinesOf] using hmap.append ih

/-- Witness for the C6 amended theorem at the concrete fixture: the
swapped emission is a permutation of the canonical one. -/
theorem c6_amended_witness :
    (displayLinesOf [c6E2]).Perm (displayLinesOf [c6E1]) :=
  c6_amended_output_per_request_perm [c6E1] [c6E2]
    (List.Forall₂.cons (List.Perm.swap ("B", "y") ("A", "x") []) List.Forall₂.nil)

/-- C3 amended: for a renewable secret and a nonzero requested ttl, the
tolerance check is one-sided: the renewal is rejected (with the message
naming desired and actual durations) exactly when the granted duration
falls short of the requested ttl by MORE than 5 seconds; a shortfall of
at most 5 seconds and any surplus (however large) are accepted. -/
theorem c3_amended_one_sided_tolerance (ttl granted : Int) (h : ttl ≠ 0) :
    leaseStep (renewVault granted) (c3Item ttl) c3Secret =
      (if 5 < ttl - granted then
        Except.error (GoFail.errMsg ("Not able to set TTL to desired amount. Desired: "
          ++ toString ttl ++ "; Actual: " ++ toString granted))
      else Except.ok ()) := by
  simp only [leaseStep, renewVault, c3Item, c3Secret]
  simp [h]

/-- Witness for the C3 amended theorem: ttl 10 with granted duration 16
(a 6-second surplus) is accepted. -/
theorem c3_amended_witness :
    leaseStep (renewVault 16) (c3Item 10) c3Secret = Except.ok () := by
  have h := c3_amended_one_sided_tolerance 10 16 (by decide)
  rw [if_neg (by decide)] at h
  exact h

/-- Appending strings appends their character lists. -/
theorem strMkAppend (a b : List Char) :
    String.mk a ++ String.mk b = String.mk (a ++ b) := rfl

/-- A display line in string-concatenation form: the export keyword,
the name, an equals sign, and the escaped value wrapped in single
quotes. -/
theorem displayLine_eq (n v : String) :
    displayLine (n, v) = "export " ++ n ++ "=" ++ sqStr ++ escString v ++ sqStr := by
  obtain ⟨nd⟩ := n
  obtain ⟨vd⟩ := v
  show String.mk (displayLineL nd vd) =
    String.mk ("export ".data) ++ String.mk nd ++ String.mk ("=".data)
      ++ String.mk [sq] ++ String.mk (escapeQuotesL vd) ++ String.mk [sq]
  simp only [strMkAppend]
  exact congrArg String.mk (by simp [displayLineL, List.append_assoc])

/-- C8: a nonzero requested ttl on a fetched secret that is not
renewable makes getSecret fail with the lease error stating that TTL
can only be set on dynamic secrets (first conjunct, for any store,
request and successfully fetched generic secret); and whenever the
resolution pass fails, the only possible DisplayEnvExports output is
empty - no export lines are emitted (second conjunct). -/
theorem c8_ttl_on_non_renewable_fails :
    (∀ (vault : Vault) (item : SecretItem) (m : MountOutput) (secret : GoSecret)
        (pairs : List (String × String)),
        m.type ≠ "kv" → item.version = 0 →
        vault.read item.secretPath = some secret →
        mapGenericPairs secret item.secretPath item.secretMaps = Except.ok pairs →
        secret.renewable = false → item.ttl ≠ 0 →
        getSecret vault item (some m) = Except.error (GoFail.errMsg
          ("Cannot set TTL on secret " ++ item.secretPath
            ++ ". TTL can only be set on dynamic secrets like AWS credentials")))
    ∧ (∀ (vault : Vault) (items : List SecretItem) (e : GoFail) (out : List String),
        loadSecrets vault items = Except.error e →
        displayOutputs vault items out → out = []) := by
  constructor
  · intro vault item m secret pairs hty hver hread hmap hren httl
    simp only [getSecret, leaseStep]
    rw [if_neg hty]
    rw [if_neg (by simp [hver])]
    rw [if_neg (by simp [hty])]
    rw [hread]
    dsimp only
    rw [hmap]
    dsimp only
    rw [if_pos ⟨httl, hren⟩]
  · intro vault items e out herr hdisp
    simp only [displayOutputs, herr] at hdisp
    exact hdisp

/-- Witness for C8 at Scenario C: ttl 600 on the non-renewable secret
secret/app/token fails with the lease error, and with that failing
configuration the empty output is the only possible one. -/
theorem c8_witness :
    getSecret c8Vault c8Item (some genericMount) = Except.error (GoFail.errMsg c8Msg)
    ∧ ([] : List String) = [] := by
  constructor
  · exact c8_ttl_on_non_renewable_fails.1 c8Vault c8Item genericMount c8Secret
      [("APP_TOKEN", "abc")] (by decide) rfl rfl rfl rfl (by decide)
  · exact c8_ttl_on_non_renewable_fails.2 c8Vault [c8Item] (GoFail.errMsg c8Msg) []
      rfl rfl

/-- C10: GetEnvs runs the same resolution pass (loadSecrets) as
DisplayEnvExports; on a failed pass it returns the nil slice together
with the error while DisplayEnvExports returns the same error; on a
successful pass, for the same map-iteration orders, it returns one
NAME=VALUE entry per resolved pair with the same quote escaping but
without the surrounding quotes and without the export prefix that the
display lines carry. -/
theorem c10_getEnvs_same_pass :
    (∀ (vault : Vault) (items : List SecretItem)
        (emitted : List (List (String × String))) (e : GoFail),
        loadSecrets vault items = Except.error e →
        runGetEnvs vault items emitted = (none, some e)
        ∧ runDisplayEnvExports vault items emitted = Except.error e)
    ∧ (∀ (vault : Vault) (items : List SecretItem)
        (emitted : List (List (String × String)))
        (resolved : List (List (String × String))),
        loadSecrets vault items = Except.ok resolved →
        runGetEnvs vault items emitted =
          (some ((emitted.map (fun l => l.map getEnvLine)).flatten), none)
        ∧ runDisplayEnvExports vault items emitted = Except.ok (displayLinesOf emitted))
    ∧ (∀ (n v : String), getEnvLine (n, v) = n ++ "=" ++ escString v
        ∧ displayLine (n, v) = "export " ++ n ++ "=" ++ sqStr ++ escString v ++ sqStr) := by
  refine ⟨?_, ?_, ?_⟩
  · intro vault items emitted e herr
    constructor
    · simp only [runGetEnvs, herr]
    · simp only [runDisplayEnvExports, herr]
  · intro vault items emitted resolved hok
    constructor
    · simp only [runGetEnvs, hok]
    · simp only [runDisplayEnvExports, hok]
  · intro n v
    exact ⟨rfl, displayLine_eq n v⟩

/-- Witness for C10 at concrete fixtures: the failing request yields
the nil slice and the lease error from both entry points, and the
succeeding request yields the NAME=VALUE entry without quotes next to
the quoted export line. -/
theorem c10_witness :
    runGetEnvs c10Vault [c10BadItem] [] =
      (none, some (GoFail.errMsg
        ("Cannot set TTL on secret secret/db. TTL can only be set on dynamic secrets like AWS credentials")))
    ∧ runGetEnvs c10Vault [c10GoodItem] [[("PW", "hunter2")]] =
      (some [getEnvLine ("PW", "hunter2")], none)
    ∧ getEnvLine ("PW", "hunter2") = "PW" ++ "=" ++ escString "hunter2" := by
  refine ⟨?_, ?_, ?_⟩
  · exact (c10_getEnvs_same_pass.1 c10Vault [c10BadItem] [] _ rfl).1
  · exact (c10_getEnvs_same_pass.2.1 c10Vault [c10GoodItem] [[("PW", "hunter2")]]
      [[("PW", "hunter2")]] rfl).1
  · exact (c10_getEnvs_same_pass.2.2 "PW" "hunter2").1

/-- Unfolding occurrences at a cons cell. -/
theorem occurrences_cons (p : List Char) (c : Char) (z : List Char) :
    occurrences p (c :: z) =
      (if p.isPrefixOf (c :: z) then 1 else 0) + occurrences p z := rfl

/-- Unfolding the quote replacement at a cons cell. -/
theorem escapeQuotesL_cons (c : Char) (v : List Char) :
    escapeQuotesL (c :: v) =
      if c = sq then escapeSeq ++ escapeQuotesL v else c :: escapeQuotesL v := rfl

/-- Unfolding the shell evaluator outside quotes. -/
theorem shEval_outside_cons (c : Char) (r : List Char) :
    shEval ShellState.outside (c :: r) =
      if c = sq then shEval ShellState.inSingle r
      else if c = dq then shEval ShellState.inDouble r
      else c :: shEval ShellState.outside r := rfl

/-- Unfolding the shell evaluator inside single quotes. -/
theorem shEval_inSingle_cons (c : Char) (r : List Char) :
    shEval ShellState.inSingle (c :: r) =
      if c = sq then shEval ShellState.outside r
      else c :: shEval ShellState.inSingle r := rfl

/-- Unfolding the shell evaluator inside double quotes. -/
theorem shEval_inDouble_cons (c : Char) (r : List Char) :
    shEval ShellState.inDouble (c :: r) =
      if c = dq then shEval ShellState.outside r
      else c :: shEval ShellState.inDouble r := rfl

/-- Extending a text on the left cannot remove occurrences. -/
theorem occurrences_le_cons (p : List Char) (c : Char) (z : List Char) :
    occurrences p z ≤ occurrences p (c :: z) := by
  rw [occurrences_cons]
  exact Nat.le_add_left _ _

/-- Occurrences in a suffix are occurrences in the whole. -/
theorem occurrences_le_append (p x z : List Char) :
    occurrences p z ≤ occurrences p (x ++ z) := by
  induction x with
  | nil => simp
  | cons c x ih =>
    rw [List.cons_append]
    exact ih.trans (occurrences_le_cons p c (x ++ z))

/-- The escape sequence is a prefix of itself followed by anything. -/
theorem escape_isPrefixOf (l : List Char) :
    escapeSeq.isPrefixOf (sq :: dq :: sq :: dq :: sq :: l) = true := by
  show List.isPrefixOf (sq :: dq :: sq :: dq :: sq :: ([] : List Char))
    (sq :: dq :: sq :: dq :: sq :: l) = true
  rw [List.isPrefixOf_cons₂, List.isPrefixOf_cons₂, List.isPrefixOf_cons₂,
    List.isPrefixOf_cons₂, List.isPrefixOf_cons₂]
  simp

/-- A text starting with the escape sequence has one occurrence at the
front on top of everything occurring in the remainder. -/
theorem occurrences_escape_block (l : List Char) :
    1 + occurrences escapeSeq l ≤ occurrences escapeSeq (escapeSeq ++ l) := by
  have htail : occurrences escapeSeq l ≤
      occurrences escapeSeq (dq :: sq :: dq :: sq :: l) :=
    (((occurrences_le_cons escapeSeq sq l).trans
        (occurrences_le_cons escapeSeq dq (sq :: l))).trans
      (occurrences_le_cons escapeSeq sq (dq :: sq :: l))).trans
      (occurrences_le_cons escapeSeq dq (sq :: dq :: sq :: l))
  have hmain : occurrences escapeSeq (escapeSeq ++ l) =
      1 + occurrences escapeSeq (dq :: sq :: dq :: sq :: l) := by
    show occurrences escapeSeq (sq :: (dq :: sq :: dq :: sq :: l)) = _
    rw [occurrences_cons, if_pos (escape_isPrefixOf l)]
  omega

/-- Each single quote of the value contributes at least one occurrence
of the escape sequence to its escaped form (with any suffix). -/
theorem count_le_occurrences (v t : List Char) :
    List.count sq v ≤ occurrences escapeSeq (escapeQuotesL v ++ t) := by
  induction v with
  | nil => simp
  | cons c v ih =>
    by_cases hc : c = sq
    · subst hc
      have hexp : escapeQuotesL (sq :: v) ++ t =
          escapeSeq ++ (escapeQuotesL v ++ t) := by
        rw [escapeQuotesL_cons, if_pos rfl, List.append_assoc]
      rw [hexp]
      have h1 := occurrences_escape_block (escapeQuotesL v ++ t)
      simp only [List.count_cons]
      simp only [beq_self_eq_true, if_true]
      omega
    · have hexp : escapeQuotesL (c :: v) ++ t = c :: (escapeQuotesL v ++ t) := by
        rw [escapeQuotesL_cons, if_neg hc, List.cons_append]
      rw [hexp]
      have h2 := occurrences_le_cons escapeSeq c (escapeQuotesL v ++ t)
      have hbeq : (c == sq) = false := by
        simp [hc]
      simp only [List.count_cons, hbeq]
      simp only [Bool.false_eq_true, if_false]
      omega

/-- Evaluating the escaped value inside single quotes (followed by the
closing quote) yields the original value: each escape block closes the
quote, passes one literal quote through a double-quoted section, and
reopens the quote. -/
theorem shEval_escape (v : List Char) :
    shEval ShellState.inSingle (escapeQuotesL v ++ [sq]) = v := by
  have hds : ¬ (dq = sq) := by decide
  induction v with
  | nil =>
    show shEval ShellState.inSingle (sq :: []) = []
    rw [shEval_inSingle_cons, if_pos rfl]
    rfl
  | cons c v ih =>
    by_cases hc : c = sq
    · subst hc
      rw [escapeQuotesL_cons, if_pos rfl, List.append_assoc]
      show shEval ShellState.inSingle
        (sq :: dq :: sq :: dq :: sq :: (escapeQuotesL v ++ [sq])) = sq :: v
      rw [shEval_inSingle_cons, if_pos rfl]
      rw [shEval_outside_cons, if_neg hds, if_pos rfl]
      rw [shEval_inDouble_cons, if_neg (fun h => hds h.symm)]
      rw [shEval_inDouble_cons, if_pos rfl]
      rw [shEval_outside_cons, if_pos rfl]
      rw [ih]
    · rw [escapeQuotesL_cons, if_neg hc, List.cons_append]
      rw [shEval_inSingle_cons, if_neg hc]
      rw [ih]

/-- C5 amended: every single quote of the value is replaced by the
escape sequence, so the emitted line contains AT LEAST k occurrences of
it (overlapping copies arising when the value itself contains quote and
double-quote runs can push the count above k), and quote removal by a
POSIX-compatible shell on the quoted value region of the line yields
the original value unchanged. -/
theorem c5_amended_escape_roundtrip (n v : List Char) :
    List.count sq v ≤ occurrences escapeSeq (displayLineL n v)
    ∧ shEval ShellState.outside (sq :: (escapeQuotesL v ++ [sq])) = v := by
  constructor
  · show List.count sq v ≤ occurrences escapeSeq
      ((("export ".data ++ n) ++ [Char.ofNat 61]) ++ (sq :: (escapeQuotesL v ++ [sq])))
    have h1 : List.count sq v ≤
        occurrences escapeSeq (sq :: (escapeQuotesL v ++ [sq])) :=
      (count_le_occurrences v [sq]).trans
        (occurrences_le_cons escapeSeq sq (escapeQuotesL v ++ [sq]))
    exact h1.trans (occurrences_le_append escapeSeq _ _)
  · rw [shEval_outside_cons, if_pos rfl]
    exact shEval_escape v

/-- One step of the version walk, phrased through metaAt: at array
index fuel the walk panics on a missing or ill-typed metadata entry,
skips a dead version, and stops at a live one. -/
theorem findVersion_succ (vres : List (String × GoVal)) (keys : List Int)
    (req : Int) (path : String) (fuel : Nat) :
    findVersion vres keys req path (fuel + 1) =
      (match metaAt vres keys fuel with
       | some (dt, dest) =>
         if dt ≠ "" ∨ dest = true then findVersion vres keys req path fuel
         else Except.ok (keys.getD fuel 0)
       | none => Except.error GoFail.panicked) := by
  have hshow : findVersion vres keys req path (fuel + 1) =
      (match List.lookup (toString (keys.getD fuel 0)) vres with
       | some (GoVal.obj fields) =>
         match List.lookup "deletion_time" fields, List.lookup "destroyed" fields with
         | some (GoVal.str dt), some (GoVal.boolean dest) =>
           if dt ≠ "" ∨ dest = true then findVersion vres keys req path fuel
           else Except.ok (keys.getD fuel 0)
         | _, _ => Except.error GoFail.panicked
       | _ => Except.error GoFail.panicked) := rfl
  rw [hshow]
  unfold metaAt
  cases h1 : List.lookup (toString (keys.getD fuel 0)) vres with
  | none => rfl
  | some gv =>
    cases gv with
    | str s => rfl
    | boolean b => rfl
    | obj fields =>
      dsimp only
      cases h2 : List.lookup "deletion_time" fields with
      | none =>
        cases h3 : List.lookup "destroyed" fields with
        | none => rfl
        | some bv => cases bv <;> rfl
      | some dv =>
        cases h3 : List.lookup "destroyed" fields with
        | none => cases dv <;> rfl
        | some bv => cases dv <;> cases bv <;> rfl

/-- C1 amended: for a negative selector the walk of GetKV2Secret,
started (as the code starts it) at array index keys.length - 1 + s --
so offset -1 denotes the SECOND-newest known version, offset -k the
(k+1)-newest -- returns the version at the highest inspected index
whose metadata is live (deletion timestamp empty, destroyed flag
false), skipping dead versions toward older ones, and fails with the
version-not-found error naming the requested selector and path when no
inspected version is live (hypothesis: every inspected index carries a
well-typed metadata entry; otherwise the code panics on a type
assertion). -/
theorem c1_amended_version_walk (vres : List (String × GoVal)) (keys : List Int)
    (req : Int) (path : String) (fuel : Nat)
    (hwt : ∀ j, j < fuel → (metaAt vres keys j).isSome = true) :
    findVersion vres keys req path fuel =
      (match (List.range fuel).reverse.find? (liveAt vres keys) with
       | some j => Except.ok (keys.getD j 0)
       | none => Except.error (GoFail.errMsg ("Unabled to find desired version "
           ++ toString req ++ " for secret " ++ path))) := by
  induction fuel with
  | zero => rfl
  | succ fuel ih =>
    have hrev : (List.range (fuel + 1)).reverse = fuel :: (List.range fuel).reverse := by
      rw [List.range_succ, List.reverse_append]
      rfl
    obtain ⟨⟨dt, dest⟩, hm⟩ :=
      Option.isSome_iff_exists.mp (hwt fuel (Nat.lt_succ_self fuel))
    have hlive : liveAt vres keys fuel = (if dt = "" then !dest else false) := by
      unfold liveAt
      rw [hm]
    have ihh := ih (fun j hj => hwt j (Nat.lt_succ_of_lt hj))
    rw [findVersion_succ, hm, hrev, List.find?_cons, hlive]
    by_cases hdt : dt = ""
    · subst hdt
      cases dest with
      | true => simp [ihh]
      | false => simp
    · simp [hdt, ihh]

/-- Witness for the C1 amended theorem at Scenario B: versions 6 and 7
with the newest (7) destroyed and 6 live, selector -1; the fuel the
code uses is (2 + (-1)).toNat = 1, the walk inspects only index 0 and
selects version 6, the second-newest. -/
theorem c1_amended_witness :
    findVersion c1bVres [6, 7] (-1) "kv/app" (((2 : Int) + (-1)).toNat) =
      Except.ok 6 := by
  have h := c1_amended_version_walk c1bVres [6, 7] (-1) "kv/app"
    (((2 : Int) + (-1)).toNat) (by decide)
  exact h.trans (by rfl)

end V2E

